import Mathlib

/-!
Verification development for the Sellsy -> BigQuery sync client
(src/SellsyAPI/client.py, src/SellsyAPI/helpers.py, src/main.py).

Each Python function relevant to the checked claims is shallowly embedded
as an executable Lean definition, translated clause by clause from the
source.  Machine-level concerns (HTTP, JSON) are abstracted into explicit
parameters: a server is a function from request data to a response, time
is a Nat parameter, and raised exceptions are explicit constructors.
-/

set_option autoImplicit false

namespace Sellsy

/-! # helpers.flatten_dict (helpers.py lines 3-22)

A Python dict whose values are either scalars or nested dicts is embedded
as the mutual inductive `JVal` / `JFields`; `JFields` keeps the insertion
order of the dict, exactly as Python dict iteration does.  Scalar leaves
are coded by `JVal.prim`.
-/

mutual

inductive JVal where
  | prim (n : Nat)
  | obj (fields : JFields)

inductive JFields where
  | fnil
  | fcons (k : String) (v : JVal) (rest : JFields)

end

/-- The key built by flatten_dict: new_key = parent_key + sep + k if
parent_key else k, with sep fixed to the default underscore. -/
def mkKey (parent k : String) : String :=
  if parent = "" then k else parent ++ "_" ++ k

/-- The key under which a leaf reached by a key path ends up: mkKey folded
along the path starting from the parent key. -/
def joinPath (parent : String) (p : List String) : String :=
  p.foldl mkKey parent

mutual

/-- helpers.py flatten_dict, body of the loop over d.items(): a dict value
is flattened recursively under the extended key, any other value is kept
as one item under the extended key.  The result is the ordered items list
that Python passes to dict(items). -/
def flattenFields : String → JFields → List (String × JVal)
  | _, .fnil => []
  | parent, .fcons k v rest => flattenEntry parent k v ++ flattenFields parent rest

def flattenEntry : String → String → JVal → List (String × JVal)
  | parent, k, .prim n => [(mkKey parent k, .prim n)]
  | parent, k, .obj fs => flattenFields (mkKey parent k) fs

end

/-- Lookup in the dict produced by Python dict(items): a later pair with
the same key overwrites an earlier one. -/
def pyLookup : List (String × JVal) → String → Option JVal
  | [], _ => none
  | (k, v) :: rest, key =>
    match pyLookup rest key with
    | some w => some w
    | none => if k = key then some v else none

/-- The ordered items of the input dict itself, for stating that an
already flat dict is returned unchanged. -/
def fieldsToList : JFields → List (String × JVal)
  | .fnil => []
  | .fcons k v rest => (k, v) :: fieldsToList rest

/-- An input dict is flat when none of its values is a dict. -/
def allPrim : JFields → Bool
  | .fnil => true
  | .fcons _ (.prim _) rest => allPrim rest
  | .fcons _ (.obj _) _ => false

/-- The leaf value of the input reached by a key path: the path descends
through nested dicts and ends at a non-dict value. -/
inductive LeafAt : JFields → List String → JVal → Prop
  | here (k : String) (n : Nat) (rest : JFields) :
      LeafAt (.fcons k (.prim n) rest) [k] (.prim n)
  | inside (k : String) (fs rest : JFields) (p : List String) (w : JVal) :
      LeafAt fs p w → LeafAt (.fcons k (.obj fs) rest) (k :: p) w
  | there (k : String) (v : JVal) (rest : JFields) (p : List String) (w : JVal) :
      LeafAt rest p w → LeafAt (.fcons k v rest) p w

/-! # client._simple_request retry loop (client.py lines 82-103)

One attempt is the request call plus raise_for_status; `attempt i` is the
outcome of the attempt made when the local variable retries equals i
(some response, or none when a RequestException is raised).  Sleeps are
collected in order.  The final raise at line 103 evaluates the message
f-string, which references the undefined name e (the handler binds err),
so what is actually raised is a NameError, not the endpoint-naming
Exception; this is recorded by the dedicated constructor.  The loop is
bounded by MAX_RETRIES = 5, so fuel 5 is exact; fellThrough models the
(unreachable) implicit return None after the while loop.
-/

def MAX_RETRIES : Nat := 5

inductive SimpleOutcome (α : Type) where
  | ok (resp : α) (sleeps : List Nat)
  | raiseNameError (sleeps : List Nat)
  | fellThrough (sleeps : List Nat)
deriving DecidableEq

def simpleRequestAux {α : Type} (attempt : Nat → Option α) :
    Nat → Nat → List Nat → SimpleOutcome α
  | 0, _, sleeps => .fellThrough sleeps
  | fuel + 1, retries, sleeps =>
    if retries < MAX_RETRIES then
      match attempt retries with
      | some v => .ok v sleeps
      | none =>
        let r := retries + 1
        let sl := sleeps ++ [2 ^ r]
        if r = MAX_RETRIES then .raiseNameError sl
        else simpleRequestAux attempt fuel r sl
    else .fellThrough sleeps

def simpleRequest {α : Type} (attempt : Nat → Option α) : SimpleOutcome α :=
  simpleRequestAux attempt MAX_RETRIES 0 []

/-! # client.get pagination loop (client.py lines 152-246)

A page response carries the length of its data list, the next offset from
its pagination block (0 codes the absent or falsy cursor) and the reported
total.  The server is a function from the offset query parameter to
some page (the whole try block succeeded) or none (the primary page
request raised, so the Python variable response keeps its previous
value).  The loop mirrors the source exactly:

  * total_results is int(total / 4) of the first response (line 163);
  * retries is reset to 0 at the top of every iteration (line 199), so
    the early return at line 222 is unreachable: a failed iteration falls
    through and re-processes the stale previous response;
  * pagination_info is assigned only inside the loop (line 238); if the
    loop body never runs, line 245 reads an unbound local, modelled by
    nameErrorAt carrying the rows accumulated at that point;
  * the loop exits when the accumulated row count reaches total_results,
    or when the falsy next offset triggers the break at line 243.
-/

structure Page where
  ndata : Nat
  offset : Nat
  total : Nat
deriving DecidableEq

inductive GetOutcome where
  | returned (rows : Nat) (cursor : Nat)
  | nameErrorAt (rows : Nat)
  | outOfFuel
deriving DecidableEq

def getLoopAux (server : Nat → Option Page) (totalResults : Nat) :
    Nat → Nat → Nat → Page → Option Nat → GetOutcome
  | 0, _, _, _, _ => .outOfFuel
  | fuel + 1, acc, off, resp, pinfo =>
    if acc < totalResults then
      match server off with
      | some p =>
        let acc2 := acc + p.ndata
        if p.offset ≠ 0 then
          getLoopAux server totalResults fuel acc2 p.offset p (some p.offset)
        else
          .returned acc2 p.offset
      | none =>
        let acc2 := acc + resp.ndata
        if resp.offset ≠ 0 then
          getLoopAux server totalResults fuel acc2 resp.offset resp (some resp.offset)
        else
          .returned acc2 resp.offset
    else
      match pinfo with
      | some poff => .returned acc poff
      | none => .nameErrorAt acc

/-- client.get after the first page request succeeded with firstPage:
line 163 divides the reported total by 4, line 194 seeds the offset from
the first response, and the while loop runs with the response variable
holding firstPage and pagination_info still unbound. -/
def getRun (firstPage : Page) (server : Nat → Option Page) (fuel : Nat) : GetOutcome :=
  getLoopAux server (firstPage.total / 4) fuel firstPage.ndata firstPage.offset firstPage none

/-- The 3-page scenario of claim C2: pages of 100, 100 and 50 records,
reported total 250, next offsets 100, 200 and finally the null cursor. -/
def c2Server : Nat → Option Page := fun off =>
  if off = 100 then some ⟨100, 200, 250⟩
  else if off = 200 then some ⟨50, 0, 250⟩
  else none

/-! # client.get custom-field backfill merge (client.py lines 176-181 and 209-214)

A primary record carries its id, its created timestamp and its embedded
custom-field value list (values are opaque, coded by Nat).  A backfill
record carries the same key and an optional custom-field list, since the
source skips backfill items whose embedded list is None.  The merge walks
the backfill batch in order; for each item with a non-None list it finds
the first primary record with the same id and the same created timestamp
and extends that record's list in place (the break at line 181). -/

structure PRec where
  id : Nat
  created : Nat
  cf : List Nat
deriving DecidableEq

structure BRec where
  id : Nat
  created : Nat
  cf : Option (List Nat)
deriving DecidableEq

def extendFirst (i c : Nat) (acf : List Nat) : List PRec → List PRec
  | [] => []
  | r :: rs =>
    if r.id = i ∧ r.created = c then { r with cf := r.cf ++ acf } :: rs
    else r :: extendFirst i c acf rs

def mergeItem (orig : List PRec) (a : BRec) : List PRec :=
  match a.cf with
  | none => orig
  | some acf => extendFirst a.id a.created acf orig

def mergeBackfill (orig : List PRec) (batch : List BRec) : List PRec :=
  batch.foldl mergeItem orig

/-- The custom-field values that the backfill batch holds for a given
key, in batch order: concatenation of the lists of all items whose id and
created both match. -/
def matchingCf (batch : List BRec) (i c : Nat) : List Nat :=
  batch.foldr (fun a acc => if a.id = i ∧ a.created = c then a.cf.getD [] ++ acc else acc) []

/-- One record updated the way extendFirst updates the first match. -/
def condUpdate (i c : Nat) (acf : List Nat) (r : PRec) : PRec :=
  if r.id = i ∧ r.created = c then { r with cf := r.cf ++ acf } else r

def recKey (r : PRec) : Nat × Nat := (r.id, r.created)

def bKey (a : BRec) : Nat × Nat := (a.id, a.created)

/-- The primary page has pairwise distinct (id, created) keys. -/
def nodupKeys (l : List PRec) : Prop := (l.map recKey).Nodup

instance (l : List PRec) : Decidable (nodupKeys l) := by
  unfold nodupKeys; infer_instance

/-! # client token handling (client.py lines 43-49, 74-79, 131-143)

A token is a value with an expiry instant; time is a Nat parameter.
_get_access_token replaces the token exactly when time() >= expiry.  The
decorator _check_access_token runs that check once, at the entry of the
wrapped method; get then builds its Authorization header once (line 143)
and every request of the call, the first page request as well as every
request inside the pagination loop (lines 159, 171, 202, 207), carries
that same header.  A run of get is therefore traced by the issue times of
its requests together with the token each one presents. -/

structure Tok where
  value : Nat
  expiry : Nat
deriving DecidableEq

def getAccessTokenAt (now : Nat) (cur fresh : Tok) : Tok :=
  if cur.expiry ≤ now then fresh else cur

structure IssuedReq where
  time : Nat
  tokValue : Nat
  tokExpiry : Nat
deriving DecidableEq

/-- The requests issued by one call of get entered at time t0, with the
pagination-loop requests issued at the given later times: the decorator
picks the token once at entry, the header is captured once, and every
request presents it. -/
def getRequestTrace (t0 : Nat) (cur fresh : Tok) (loopTimes : List Nat) : List IssuedReq :=
  let tok := getAccessTokenAt t0 cur fresh
  ⟨t0, tok.value, tok.expiry⟩ :: loopTimes.map (fun t => ⟨t, tok.value, tok.expiry⟩)

/-! # client custom-field catalog (client.py lines 105-129 and 146-150)

fetch_custom_field_ids stores one fresh list per related object in the
dict self.custom_fields; get then runs

    custom_field_ids = self.custom_fields.get('client', [])
    for item in [...]: custom_field_ids.extend(self.custom_fields.get(item, []))

In Python, dict.get returns the stored list object itself, and
list.extend mutates it in place; so whenever the catalog has a client
entry, the loop appends every other entity type's ids onto the stored
client list.  The catalog is embedded as an ordered association list, and
catalogAfterGet is the catalog as it stands after get's prologue ran. -/

def lookupCat (cat : List (String × List Nat)) (k : String) : Option (List Nat) :=
  (cat.find? (fun e => e.1 = k)).map (fun e => e.2)

def otherEntityTypes : List String :=
  ["prospect", "contact", "opportunity", "document", "supplier", "purchase"]

/-- The id list built by get's prologue: the client entry followed by the
entries of the other entity types, in the order of the source list. -/
def collectIds (cat : List (String × List Nat)) : List Nat :=
  otherEntityTypes.foldl (fun acc it => acc ++ (lookupCat cat it).getD [])
    ((lookupCat cat "client").getD [])

/-- The catalog after get's prologue: unchanged when there is no client
entry (dict.get then returned a fresh list), otherwise the client entry
now holds the extended list. -/
def catalogAfterGet (cat : List (String × List Nat)) : List (String × List Nat) :=
  match lookupCat cat "client" with
  | none => cat
  | some _ => cat.map (fun e => if e.1 = "client" then (e.1, collectIds cat) else e)

/-! # custom-field value resolution during flattening (client.py lines 184-191)

Python values occurring as custom-field values or option ids are embedded
as PyVal: an int, a string, or a dict with amount and currency keys (the
amount itself an int, a string or None).  Equality of PyVal is structural,
matching Python == on these shapes.  The loop in get sets the column
cf.name to item.label for the first item of cf.parameters.items whose id
equals the raw value, and only runs when the raw value is not None; in
every other case the column is simply never created. -/

inductive Amt where
  | anum (n : Int)
  | astr (s : String)
  | anone
deriving DecidableEq

inductive PyVal where
  | vint (n : Int)
  | vstr (s : String)
  | vmoney (amount : Amt) (currency : String)
deriving DecidableEq

structure CFItem where
  id : PyVal
  label : String
deriving DecidableEq

structure CFEntry where
  name : String
  value : Option PyVal
  items : List CFItem
deriving DecidableEq

/-- The column value that get's flattening gives a custom-field entry:
the label of the first matching option when the raw value is non-None and
matches, absence (none) otherwise. -/
def resolveGet (cf : CFEntry) : Option PyVal :=
  match cf.value with
  | none => none
  | some v => (cf.items.find? (fun it => it.id = v)).map (fun it => PyVal.vstr it.label)

/-- Rendering of an amount inside the claimed money string. -/
def amtText : Amt → String
  | .anum n => toString n
  | .astr s => s
  | .anone => ""

/-- Modelled from the spec (claim C7), not from the source, for
comparison with resolveGet: raw value 0, "0" or empty string resolves to
null; a money object resolves to "amount currency" unless the amount is
zero or empty, then null; otherwise the raw value is looked up as an
option id, giving the matching label (with the sentinel labels Inconnu,
N/C and Aucun normalized to null) or the raw id itself when no option
matches. -/
def specResolve (cf : CFEntry) : Option PyVal :=
  match cf.value with
  | none => none
  | some v =>
    if v = .vint 0 ∨ v = .vstr "0" ∨ v = .vstr "" then none
    else
      match v with
      | .vmoney a c =>
        if a = .anum 0 ∨ a = .astr "0" ∨ a = .astr "" ∨ a = .anone then none
        else some (.vstr (amtText a ++ " " ++ c))
      | _ =>
        match cf.items.find? (fun it => it.id = v) with
        | some it =>
          if it.label = "Inconnu" ∨ it.label = "N/C" ∨ it.label = "Aucun" then none
          else some (.vstr it.label)
        | none => some v

/-! # resume cursor (client.py lines 138-159, main.py lines 21-30)

get applies setdefault for limit, order and direction to the caller's
params and sets the offset query parameter exactly when the pagination
argument is not None; the first page request is issued with these params.
main recovers a cursor by filtering the directory listing with
str.startswith against the literal pattern endpoint-entityType-*.csv,
taking the last element of the sorted matching list (its maximum under
the lexicographic order) and extracting the text after the last hyphen
with the .csv suffix removed. -/

structure UserParams where
  limit : Option Nat
  order : Option String
  direction : Option String
  offset : Option String
deriving DecidableEq

structure QueryParams where
  limit : Nat
  order : String
  direction : String
  offset : Option String
deriving DecidableEq

def firstRequestParams (p : UserParams) (pagination : Option String) : QueryParams :=
  { limit := p.limit.getD 100
    order := p.order.getD "created_at"
    direction := p.direction.getD "desc"
    offset :=
      match pagination with
      | some c => some c
      | none => p.offset }

def filePattern (endpoint ctype : String) : String :=
  endpoint ++ "-" ++ ctype ++ "-*.csv"

def matchingFiles (files : List String) (endpoint ctype : String) : List String :=
  files.filter (fun f => f.startsWith (filePattern endpoint ctype))

def extractPagination (f : String) : String :=
  ((f.splitOn "-").getLastD "").replace ".csv" ""

/-- main.py lines 24-30: when some file matches, the cursor extracted
from the lexicographically latest one (sorted(...)[-1] is the maximum),
otherwise None. -/
def recoveredPagination (files : List String) (endpoint ctype : String) : Option String :=
  match matchingFiles files endpoint ctype with
  | [] => none
  | f :: fs => some (extractPagination (fs.foldl (fun a b => if a ≤ b then b else a) f))

/-! # client._request_new_token (client.py lines 51-72)

The token exchange performs one POST with no loop around it; attempt 0 is
its outcome (the response body on a 2xx answer, none when the request
raises or raise_for_status fires).  On success the stored pair is the
access token with expiry time() + expires_in; on failure a single
RuntimeError wrapping the cause is raised, modelled by none.  The
decorator _check_access_token calls this before the wrapped method runs,
so a failed exchange means the wrapped method issues zero requests. -/

structure TokenResp where
  accessToken : Nat
  expiresIn : Nat
deriving DecidableEq

def requestNewToken (now : Nat) (attempt : Nat → Option TokenResp) : Option (Nat × Nat) :=
  match attempt 0 with
  | some r => some (r.accessToken, now + r.expiresIn)
  | none => none

/-- Number of requests issued by a decorated method whose token refresh
gave tok: none propagates the exception before the method body runs. -/
def authedCallRequests (tok : Option (Nat × Nat)) (bodyRequests : Nat) : Nat :=
  match tok with
  | none => 0
  | some _ => bodyRequests

/-! # Theorems -/

/-! ## Claim C2 -/

/-- Claim C2 (code bug witnessed): on the 3-page scenario with pages of
100, 100 and 50 records and reported total 250, get stops after the first
page with only 100 rows and then reads the unbound local pagination_info,
instead of accumulating 250 rows and returning the null cursor; with the
undivided total 250 as loop target the very same loop would accumulate
exactly 250 rows and end on the null cursor. -/
theorem c2_pagination_total_div4_run :
    getRun ⟨100, 100, 250⟩ c2Server 10 = .nameErrorAt 100 ∧
    getLoopAux c2Server 250 10 100 100 ⟨100, 100, 250⟩ none = .returned 250 0 ∧
    GetOutcome.nameErrorAt 100 ≠ .returned 250 0 :=
  ⟨rfl, rfl, by decide⟩

/-! ## Claim C3 -/

/-- Claim C3 (code bug witnessed): when every attempt fails,
_simple_request makes exactly 5 attempts with sleeps 2, 4, 8, 16, 32 and
then raises; but the raise evaluates an f-string referencing the
undefined name e, so a NameError is raised instead of an
exhausted-retries error naming the endpoint.  When the first 4 attempts
fail and the fifth succeeds, the response is returned after sleeping
exactly 2, 4, 8, 16. -/
theorem c3_retry_schedule_run :
    simpleRequest (fun _ => (none : Option Nat)) = .raiseNameError [2, 4, 8, 16, 32] ∧
    simpleRequest (fun k => if k < 4 then none else some 42) = .ok 42 [2, 4, 8, 16] :=
  ⟨rfl, rfl⟩

/-! ## Claim C4 -/

/-- Claim C4 (code bug witnessed): with every page request at offset 100
failing and the previous page holding 100 rows (reported total 2000, so
the loop target is 500), the fetch never takes the 5-consecutive-failures
return: the retries counter is reset at top of every iteration, each
failed iteration re-appends the stale previous page, and the loop ends
through the row-count condition with 500 rows, 400 of them duplicates,
instead of returning the 100 accumulated rows. -/
theorem c4_page_failure_run :
    getRun ⟨100, 100, 2000⟩ (fun _ => none) 10 = .returned 500 100 ∧
    GetOutcome.returned 500 100 ≠ .returned 100 100 :=
  ⟨rfl, by decide⟩

/-! ## Claim C6 -/

/-- Claim C6 (code bug witnessed): on the catalog mapping client to [1]
and prospect to [2], one run of get's prologue mutates the stored client
entry to [1, 2] (custom_field_ids aliases the stored list and extend
mutates it in place), and a second run mutates it to [1, 2, 2]; the
catalog is not left unchanged by calls to get. -/
theorem c6_catalog_mutation_run :
    catalogAfterGet [("client", [1]), ("prospect", [2])] =
      [("client", [1, 2]), ("prospect", [2])] ∧
    catalogAfterGet [("client", [1]), ("prospect", [2])] ≠
      [("client", [1]), ("prospect", [2])] ∧
    catalogAfterGet (catalogAfterGet [("client", [1]), ("prospect", [2])]) =
      [("client", [1, 2, 2]), ("prospect", [2])] :=
  ⟨by decide, by decide, by decide⟩

/-! ## Claim C9 -/

/-- Claim C9: the token exchange consults only its single POST attempt
(no retry), on failure the wrapped operation issues zero requests, and on
success the stored pair is the access token with expiry now plus the
server-reported expires_in. -/
theorem c9_token_exchange :
    ∀ (now : Nat) (attempt attempt2 : Nat → Option TokenResp) (k : Nat),
      (attempt 0 = none → requestNewToken now attempt = none ∧
        authedCallRequests (requestNewToken now attempt) k = 0) ∧
      (∀ r, attempt 0 = some r →
        requestNewToken now attempt = some (r.accessToken, now + r.expiresIn)) ∧
      (attempt 0 = attempt2 0 → requestNewToken now attempt = requestNewToken now attempt2) := by
  intro now attempt attempt2 k
  refine ⟨?_, ?_, ?_⟩
  · intro h
    simp [requestNewToken, authedCallRequests, h]
  · intro r h
    simp [requestNewToken, h]
  · intro h
    simp [requestNewToken, h]

/-- Witness for claim C9 at concrete inputs. -/
theorem c9_token_exchange_witness :
    (requestNewToken 7 (fun _ => none) = none ∧
      authedCallRequests (requestNewToken 7 (fun _ => none)) 3 = 0) ∧
    requestNewToken 7 (fun _ => some ⟨9, 60⟩) = some (9, 7 + 60) :=
  ⟨(c9_token_exchange 7 (fun _ => none) (fun _ => none) 3).1 rfl,
   (c9_token_exchange 7 (fun _ => some ⟨9, 60⟩) (fun _ => none) 3).2.1 ⟨9, 60⟩ rfl⟩

/-! ## Claim C5 -/

/-- Claim C5 (counterexample): in a run of get entered at time 0 with a
token expiring at instant 100 and a loop page requested at time 150, the
loop request presents the token at a time not before its expiry, so the
claimed invariant fails. -/
theorem c5_expired_token_counterexample :
    ¬ (∀ r ∈ getRequestTrace 0 ⟨1, 100⟩ ⟨2, 300⟩ [150], r.time < r.tokExpiry) := by
  decide

/-- Claim C5 (amended): token validity is checked once, at the entry of a
decorated call; provided a freshly exchanged token expires after the
entry instant, the token selected at entry is unexpired at entry time,
and every request of the call, including every pagination-loop request,
presents exactly that token, with no re-check before the later
requests. -/
theorem c5_token_checked_at_entry :
    ∀ (t0 : Nat) (cur fresh : Tok) (loopTimes : List Nat),
      t0 < fresh.expiry →
      (∀ r ∈ getRequestTrace t0 cur fresh loopTimes,
          r.tokValue = (getAccessTokenAt t0 cur fresh).value ∧
          r.tokExpiry = (getAccessTokenAt t0 cur fresh).expiry) ∧
      t0 < (getAccessTokenAt t0 cur fresh).expiry := by
  intro t0 cur fresh loopTimes hfresh
  constructor
  · intro r hr
    simp only [getRequestTrace, List.mem_cons, List.mem_map] at hr
    rcases hr with h | ⟨t, _, h⟩ <;> subst h <;> exact ⟨rfl, rfl⟩
  · unfold getAccessTokenAt
    split
    · exact hfresh
    · omega

/-- Witness for claim C5 (amended) at concrete inputs. -/
theorem c5_token_checked_at_entry_witness :
    (∀ r ∈ getRequestTrace 0 ⟨1, 100⟩ ⟨2, 300⟩ [150],
        r.tokValue = (getAccessTokenAt 0 ⟨1, 100⟩ ⟨2, 300⟩).value ∧
        r.tokExpiry = (getAccessTokenAt 0 ⟨1, 100⟩ ⟨2, 300⟩).expiry) ∧
    0 < (getAccessTokenAt 0 ⟨1, 100⟩ ⟨2, 300⟩).expiry :=
  c5_token_checked_at_entry 0 ⟨1, 100⟩ ⟨2, 300⟩ [150] (by decide)

/-! ## Claim C7 -/

/-- Claim C7 (counterexample): three concrete custom-field entries on
which the resolution actually performed by get differs from the claimed
resolution: a money value resolves to an absent column instead of the
string "5 EUR"; a value matching an option labelled Inconnu resolves to
that label instead of null; an unmatched option id resolves to an absent
column instead of the raw id. -/
theorem c7_resolution_counterexample :
    resolveGet ⟨"Budget", some (.vmoney (.astr "5") "EUR"), []⟩ = none ∧
    specResolve ⟨"Budget", some (.vmoney (.astr "5") "EUR"), []⟩ = some (.vstr "5 EUR") ∧
    resolveGet ⟨"Statut", some (.vint 7), [⟨.vint 7, "Inconnu"⟩]⟩ = some (.vstr "Inconnu") ∧
    specResolve ⟨"Statut", some (.vint 7), [⟨.vint 7, "Inconnu"⟩]⟩ = none ∧
    resolveGet ⟨"Code", some (.vint 5), [⟨.vint 7, "A"⟩]⟩ = none ∧
    specResolve ⟨"Code", some (.vint 5), [⟨.vint 7, "A"⟩]⟩ = some (.vint 5) :=
  ⟨rfl, by decide, by decide, by decide, by decide, by decide⟩

/-- Claim C7 (amended): during get's flattening a custom-field column is
set exactly when the raw value is non-None and equals the id of some
option of the field's parameters items, in which case its value is the
first matching option's label; in every other case the column is absent,
with no zero/empty normalization, no money rendering, no raw-id fallback
and no sentinel-label normalization. -/
theorem c7_get_resolution :
    ∀ cf : CFEntry,
      (cf.value = none → resolveGet cf = none) ∧
      (∀ v it, cf.value = some v → cf.items.find? (fun i2 => i2.id = v) = some it →
          resolveGet cf = some (.vstr it.label)) ∧
      (∀ v, cf.value = some v → cf.items.find? (fun i2 => i2.id = v) = none →
          resolveGet cf = none) := by
  intro cf
  refine ⟨?_, ?_, ?_⟩
  · intro h
    simp [resolveGet, h]
  · intro v it h1 h2
    simp [resolveGet, h1, h2]
  · intro v h1 h2
    simp [resolveGet, h1, h2]

/-- Witness for claim C7 (amended) at concrete inputs. -/
theorem c7_get_resolution_witness :
    resolveGet ⟨"f", some (.vint 7), [⟨.vint 7, "A"⟩]⟩ = some (.vstr "A") ∧
    resolveGet ⟨"g", none, [⟨.vint 7, "A"⟩]⟩ = none :=
  ⟨(c7_get_resolution ⟨"f", some (.vint 7), [⟨.vint 7, "A"⟩]⟩).2.1
      (.vint 7) ⟨.vint 7, "A"⟩ rfl (by decide),
   (c7_get_resolution ⟨"g", none, [⟨.vint 7, "A"⟩]⟩).1 rfl⟩

/-! ## Claim C8 -/

/-- Claim C8: the first page request of a run carries the offset query
parameter equal to the supplied cursor whenever one is supplied (directly
or recovered by main from the latest matching output filename), and
leaves the offset parameter unset when the caller supplied none and no
cursor is given. -/
theorem c8_resume_offset :
    ∀ (p : UserParams) (c : String) (files : List String) (e t : String),
      (firstRequestParams p (some c)).offset = some c ∧
      (p.offset = none → (firstRequestParams p none).offset = none) ∧
      (p.offset = none →
        (firstRequestParams p (recoveredPagination files e t)).offset =
          recoveredPagination files e t) := by
  intro p c files e t
  refine ⟨rfl, ?_, ?_⟩
  · intro h
    simpa [firstRequestParams] using h
  · intro h
    cases hr : recoveredPagination files e t <;> simp [firstRequestParams, hr, h]

/-- Witness for claim C8 at concrete inputs. -/
theorem c8_resume_offset_witness :
    (firstRequestParams ⟨none, none, none, none⟩ (some "300")).offset = some "300" ∧
    (firstRequestParams ⟨none, none, none, none⟩ none).offset = none ∧
    (firstRequestParams ⟨none, none, none, none⟩
        (recoveredPagination ["individuals-prospect-100.csv"] "individuals" "prospect")).offset =
      recoveredPagination ["individuals-prospect-100.csv"] "individuals" "prospect" :=
  ⟨(c8_resume_offset ⟨none, none, none, none⟩ "300" [] "" "").1,
   (c8_resume_offset ⟨none, none, none, none⟩ "300" [] "" "").2.1 rfl,
   (c8_resume_offset ⟨none, none, none, none⟩ "300"
      ["individuals-prospect-100.csv"] "individuals" "prospect").2.2 rfl⟩

/-! ## Claim C1 -/

theorem extendFirst_map_recKey (i c : Nat) (acf : List Nat) :
    ∀ l : List PRec, (extendFirst i c acf l).map recKey = l.map recKey
  | [] => rfl
  | r :: rs => by
    by_cases h : r.id = i ∧ r.created = c
    · simp [extendFirst, h, recKey]
    · simp [extendFirst, h, recKey, extendFirst_map_recKey i c acf rs]

theorem map_condUpdate_eq_self (i c : Nat) (acf : List Nat) :
    ∀ l : List PRec, (∀ r ∈ l, ¬(r.id = i ∧ r.created = c)) →
      l.map (condUpdate i c acf) = l
  | [], _ => rfl
  | r :: rs, h => by
    have hr := h r (by simp)
    have hrest : ∀ r2 ∈ rs, ¬(r2.id = i ∧ r2.created = c) :=
      fun r2 hm => h r2 (by simp [hm])
    simp [condUpdate, hr, map_condUpdate_eq_self i c acf rs hrest]

theorem extendFirst_eq_map (i c : Nat) (acf : List Nat) :
    ∀ l : List PRec, nodupKeys l → extendFirst i c acf l = l.map (condUpdate i c acf)
  | [], _ => rfl
  | r :: rs, h => by
    have h1 : ((r :: rs).map recKey).Nodup := h
    rw [List.map_cons] at h1
    have hcons := List.nodup_cons.mp h1
    by_cases hm : r.id = i ∧ r.created = c
    · have hnone : ∀ r2 ∈ rs, ¬(r2.id = i ∧ r2.created = c) := by
        intro r2 hmem hc
        apply hcons.1
        have e1 : recKey r = recKey r2 := by
          simp [recKey, hm.1, hm.2, hc.1, hc.2]
        rw [e1]
        exact List.mem_map_of_mem recKey hmem
      simp [extendFirst, hm, condUpdate, map_condUpdate_eq_self i c acf rs hnone]
    · have h2 : nodupKeys rs := hcons.2
      simp [extendFirst, hm, condUpdate, extendFirst_eq_map i c acf rs h2]

theorem nodupKeys_mergeItem (orig : List PRec) (a : BRec) (h : nodupKeys orig) :
    nodupKeys (mergeItem orig a) := by
  cases hc : a.cf with
  | none => simpa [mergeItem, hc] using h
  | some acf =>
    simp only [mergeItem, hc]
    unfold nodupKeys
    rw [extendFirst_map_recKey]
    exact h

theorem matchingCf_cons (a : BRec) (bs : List BRec) (i c : Nat) :
    matchingCf (a :: bs) i c =
      (if a.id = i ∧ a.created = c then a.cf.getD [] else []) ++ matchingCf bs i c := by
  by_cases h : a.id = i ∧ a.created = c <;> simp [matchingCf, h]

theorem map_cf_append_nil :
    ∀ l : List PRec, l.map (fun r => { r with cf := r.cf ++ ([] : List Nat) }) = l
  | [] => rfl
  | r :: rs => by simp [map_cf_append_nil rs]

theorem mergeBackfill_char :
    ∀ (batch : List BRec) (orig : List PRec), nodupKeys orig →
      mergeBackfill orig batch =
        orig.map (fun r => { r with cf := r.cf ++ matchingCf batch r.id r.created })
  | [], orig, _ => by
    simp only [mergeBackfill, List.foldl_nil, matchingCf, List.foldr_nil]
    exact (map_cf_append_nil orig).symm
  | a :: bs, orig, h => by
    have hstep : mergeBackfill orig (a :: bs) = mergeBackfill (mergeItem orig a) bs := rfl
    rw [hstep, mergeBackfill_char bs (mergeItem orig a) (nodupKeys_mergeItem orig a h)]
    cases hc : a.cf with
    | none =>
      simp only [mergeItem, hc]
      have hfun : (fun r : PRec => { r with cf := r.cf ++ matchingCf bs r.id r.created }) =
          (fun r : PRec => { r with cf := r.cf ++ matchingCf (a :: bs) r.id r.created }) := by
        funext r
        rw [matchingCf_cons]
        by_cases hm : a.id = r.id ∧ a.created = r.created <;> simp [hm, hc]
      rw [hfun]
    | some acf =>
      simp only [mergeItem, hc]
      rw [extendFirst_eq_map a.id a.created acf orig h, List.map_map]
      have hfun : ((fun r : PRec => { r with cf := r.cf ++ matchingCf bs r.id r.created }) ∘
            condUpdate a.id a.created acf) =
          (fun r : PRec => { r with cf := r.cf ++ matchingCf (a :: bs) r.id r.created }) := by
        funext r
        by_cases hm : r.id = a.id ∧ r.created = a.created
        · simp [Function.comp, condUpdate, matchingCf_cons, hm.1, hm.2, hc,
            List.append_assoc]
        · have hm2 : ¬(a.id = r.id ∧ a.created = r.created) :=
            fun hcon => hm ⟨hcon.1.symm, hcon.2.symm⟩
          simp [Function.comp, condUpdate, hm, matchingCf_cons, hm2]
      rw [hfun]

theorem matchingCf_eq_filter (i c : Nat) :
    ∀ l : List BRec, matchingCf l i c =
      (l.filter (fun a => decide (a.id = i ∧ a.created = c))).foldr
        (fun a acc => a.cf.getD [] ++ acc) []
  | [] => rfl
  | a :: bs => by
    by_cases h : a.id = i ∧ a.created = c <;>
      simp [matchingCf_cons, List.filter_cons, h, matchingCf_eq_filter i c bs]

theorem filter_key_length_le_one (i c : Nat) :
    ∀ l : List BRec, (l.map bKey).Nodup →
      (l.filter (fun a => decide (a.id = i ∧ a.created = c))).length ≤ 1
  | [], _ => by simp
  | a :: bs, h => by
    have h1 : ((a :: bs).map bKey).Nodup := h
    rw [List.map_cons] at h1
    have hcons := List.nodup_cons.mp h1
    by_cases hm : a.id = i ∧ a.created = c
    · simp [List.filter_cons, hm]
      intro a2 hmem hid hcr
      apply hcons.1
      have e1 : bKey a = bKey a2 := by
        simp [bKey, hm.1, hm.2, hid, hcr]
      rw [e1]
      exact List.mem_map_of_mem bKey hmem
    · simp only [List.filter_cons, decide_eq_true_eq, hm, if_false]
      exact filter_key_length_le_one i c bs hcons.2

theorem matchingCf_perm (i c : Nat) (b1 b2 : List BRec)
    (hp : b1.Perm b2) (hn : (b1.map bKey).Nodup) :
    matchingCf b1 i c = matchingCf b2 i c := by
  rw [matchingCf_eq_filter i c b1, matchingCf_eq_filter i c b2]
  have hf : (b1.filter (fun a => decide (a.id = i ∧ a.created = c))).Perm
      (b2.filter (fun a => decide (a.id = i ∧ a.created = c))) := hp.filter _
  have hl := filter_key_length_le_one i c b1 hn
  cases he : b1.filter (fun a => decide (a.id = i ∧ a.created = c)) with
  | nil =>
    rw [he] at hf
    rw [List.nil_perm.mp hf]
  | cons x t =>
    cases t with
    | nil =>
      rw [he] at hf
      rw [List.singleton_perm.mp hf]
    | cons y t2 =>
      rw [he] at hl
      simp at hl

/-- Claim C1: the backfill merge of get attaches a backfill record's
custom-field values to the primary record with the same id and the same
created timestamp, never positionally: on a primary page with pairwise
distinct (id, created) keys, the merged page is the primary page with
each record's embed list extended by exactly the values the batch holds
for that record's key; when the batch also has pairwise distinct keys,
any reordering of the batch merges to the same result; in particular on
the page [(1, T1), (2, T2)] and the reversed batch [(2, T2, [X]),
(1, T1, [Y])], Y is appended to record 1 and X to record 2. -/
theorem c1_merge_by_key :
    (∀ (orig : List PRec) (batch : List BRec), nodupKeys orig →
        mergeBackfill orig batch =
          orig.map (fun r => { r with cf := r.cf ++ matchingCf batch r.id r.created })) ∧
    (∀ (orig : List PRec) (b1 b2 : List BRec), nodupKeys orig →
        (b1.map bKey).Nodup → b1.Perm b2 →
        mergeBackfill orig b1 = mergeBackfill orig b2) ∧
    mergeBackfill [⟨1, 10, []⟩, ⟨2, 20, []⟩] [⟨2, 20, some [777]⟩, ⟨1, 10, some [888]⟩] =
      [⟨1, 10, [888]⟩, ⟨2, 20, [777]⟩] := by
  refine ⟨fun orig batch h => mergeBackfill_char batch orig h, ?_, rfl⟩
  intro orig b1 b2 h hn hp
  rw [mergeBackfill_char b1 orig h, mergeBackfill_char b2 orig h]
  have hfun : (fun r : PRec => { r with cf := r.cf ++ matchingCf b1 r.id r.created }) =
      (fun r : PRec => { r with cf := r.cf ++ matchingCf b2 r.id r.created }) := by
    funext r
    rw [matchingCf_perm r.id r.created b1 b2 hp hn]
  rw [hfun]

/-- Witness for claim C1 at the concrete reversed-order example. -/
theorem c1_merge_by_key_witness :
    mergeBackfill [⟨1, 10, []⟩, ⟨2, 20, []⟩] [⟨2, 20, some [777]⟩, ⟨1, 10, some [888]⟩] =
      ([⟨1, 10, []⟩, ⟨2, 20, []⟩] : List PRec).map
        (fun r => { r with
          cf := r.cf ++ matchingCf [⟨2, 20, some [777]⟩, ⟨1, 10, some [888]⟩] r.id r.created }) :=
  c1_merge_by_key.1 [⟨1, 10, []⟩, ⟨2, 20, []⟩]
    [⟨2, 20, some [777]⟩, ⟨1, 10, some [888]⟩] (by decide)

/-! ## Claim C10 -/

theorem mem_flatten_of_leafAt {d : JFields} {p : List String} {w : JVal}
    (h : LeafAt d p w) : ∀ parent, (joinPath parent p, w) ∈ flattenFields parent d := by
  induction h with
  | here k n rest =>
    intro parent
    simp [flattenFields, flattenEntry, joinPath]
  | inside k fs rest p w hlf ih =>
    intro parent
    show (joinPath parent (k :: p), w) ∈
      flattenEntry parent k (.obj fs) ++ flattenFields parent rest
    refine List.mem_append.mpr (Or.inl ?_)
    simpa [flattenEntry, joinPath] using ih (mkKey parent k)
  | there k v rest p w hlf ih =>
    intro parent
    show (joinPath parent p, w) ∈ flattenEntry parent k v ++ flattenFields parent rest
    exact List.mem_append.mpr (Or.inr (ih parent))

theorem pyLookup_eq_none (key : String) :
    ∀ l : List (String × JVal), key ∉ l.map Prod.fst → pyLookup l key = none
  | [], _ => rfl
  | (k, v) :: rest, h => by
    have h1 : k ≠ key := by
      intro e
      exact h (by simp [e])
    have h2 : key ∉ rest.map Prod.fst := by
      intro hm
      exact h (by simp [hm])
    simp [pyLookup, pyLookup_eq_none key rest h2, h1]

theorem pyLookup_of_mem_nodup (k : String) (w : JVal) :
    ∀ l : List (String × JVal), (k, w) ∈ l → (l.map Prod.fst).Nodup →
      pyLookup l k = some w
  | [], hm, _ => absurd hm (by simp)
  | (k2, v2) :: rest, hm, hn => by
    have h1 : ((k2, v2) :: rest).map Prod.fst = k2 :: rest.map Prod.fst := rfl
    rw [h1] at hn
    have hcons := List.nodup_cons.mp hn
    rcases List.mem_cons.mp hm with he | ht
    · injection he with ek ev
      subst ek
      subst ev
      have hnone : pyLookup rest k = none := pyLookup_eq_none k rest hcons.1
      simp [pyLookup, hnone]
    · have hr := pyLookup_of_mem_nodup k w rest ht hcons.2
      simp [pyLookup, hr]

mutual

theorem noObj_flattenFields :
    ∀ (parent : String) (d : JFields), ∀ kv ∈ flattenFields parent d,
      ∀ g : JFields, kv.2 ≠ JVal.obj g
  | _, .fnil => by simp [flattenFields]
  | parent, .fcons k v rest => by
    intro kv hm g
    simp only [flattenFields, List.mem_append] at hm
    rcases hm with h | h
    · exact noObj_flattenEntry parent k v kv h g
    · exact noObj_flattenFields parent rest kv h g

theorem noObj_flattenEntry :
    ∀ (parent k : String) (v : JVal), ∀ kv ∈ flattenEntry parent k v,
      ∀ g : JFields, kv.2 ≠ JVal.obj g
  | parent, k, .prim n => by
    intro kv hm g
    simp only [flattenEntry, List.mem_singleton] at hm
    subst hm
    intro he
    exact JVal.noConfusion he
  | parent, k, .obj fs => by
    intro kv hm g
    exact noObj_flattenFields (mkKey parent k) fs kv hm g

end

theorem flatten_flat :
    ∀ d : JFields, allPrim d = true → flattenFields "" d = fieldsToList d
  | .fnil, _ => rfl
  | .fcons k v rest, h => by
    cases v with
    | prim n =>
      have hr : allPrim rest = true := by simpa [allPrim] using h
      simp [flattenFields, flattenEntry, fieldsToList, mkKey, flatten_flat rest hr]
    | obj fs => simp [allPrim] at h

/-- Claim C10 (counterexample): the input dict with entries a mapping to
the dict with b mapping to 1, and a_b mapping to 2, has the leaf 1 at
path a.b, whose joined key a_b collides with the second entry; in the
returned dict that key holds 2, not the leaf value 1, so a leaf does not
always appear under its joined key path. -/
theorem c10_collision_counterexample :
    LeafAt (.fcons "a" (.obj (.fcons "b" (.prim 1) .fnil)) (.fcons "a_b" (.prim 2) .fnil))
      ["a", "b"] (.prim 1) ∧
    pyLookup
      (flattenFields ""
        (.fcons "a" (.obj (.fcons "b" (.prim 1) .fnil)) (.fcons "a_b" (.prim 2) .fnil)))
      (joinPath "" ["a", "b"]) = some (.prim 2) ∧
    JVal.prim 2 ≠ JVal.prim 1 := by
  refine ⟨LeafAt.inside _ _ _ _ _ (LeafAt.here "b" 1 .fnil), rfl, ?_⟩
  intro he
  injection he with h2
  exact absurd h2 (by decide)

/-- Claim C10 (amended): flatten_dict terminates and returns a dict none
of whose values is a dict; every leaf of the input appears in the
returned dict under the key obtained by joining its key path with
underscores provided the joined keys of the flattened items are pairwise
distinct (when two paths join to the same key, the later entry wins, as
the counterexample shows); and on an already flat input the returned
items equal the input items. -/
theorem c10_flatten_amended :
    (∀ (parent : String) (d : JFields) (kv : String × JVal), kv ∈ flattenFields parent d →
        ∀ g : JFields, kv.2 ≠ JVal.obj g) ∧
    (∀ (d : JFields) (p : List String) (w : JVal), LeafAt d p w →
        ((flattenFields "" d).map Prod.fst).Nodup →
        pyLookup (flattenFields "" d) (joinPath "" p) = some w) ∧
    (∀ d : JFields, allPrim d = true → flattenFields "" d = fieldsToList d) := by
  refine ⟨?_, ?_, flatten_flat⟩
  · intro parent d kv hm g
    exact noObj_flattenFields parent d kv hm g
  · intro d p w hleaf hnodup
    exact pyLookup_of_mem_nodup (joinPath "" p) w (flattenFields "" d)
      (mem_flatten_of_leafAt hleaf "") hnodup

/-- Witness for claim C10 (amended) at concrete inputs: the nested dict
with a mapping to the dict with b mapping to 1 (no collision), the flat
dict with x mapping to 5, and the no-dict-values clause at the flat
item produced by the latter. -/
theorem c10_flatten_amended_witness :
    pyLookup (flattenFields "" (.fcons "a" (.obj (.fcons "b" (.prim 1) .fnil)) .fnil))
      (joinPath "" ["a", "b"]) = some (.prim 1) ∧
    flattenFields "" (.fcons "x" (.prim 5) .fnil) =
      fieldsToList (.fcons "x" (.prim 5) .fnil) ∧
    ∀ g : JFields, (("x", JVal.prim 5) : String × JVal).2 ≠ JVal.obj g :=
  ⟨c10_flatten_amended.2.1 (.fcons "a" (.obj (.fcons "b" (.prim 1) .fnil)) .fnil)
      ["a", "b"] (.prim 1)
      (LeafAt.inside _ _ _ _ _ (LeafAt.here "b" 1 .fnil)) (by decide),
   c10_flatten_amended.2.2 (.fcons "x" (.prim 5) .fnil) rfl,
   c10_flatten_amended.1 "" (.fcons "x" (.prim 5) .fnil) ("x", JVal.prim 5)
     (by simp [flattenFields, flattenEntry, mkKey])⟩

end Sellsy
